import Mathlib

/-!
A shallow embedding of the ledger-balance logic of the AA_Hisab bookkeeping
application, together with theorems checking the natural-language
specification against it.

The embedding follows the report pages of the source:

* `src/pages/Dashboard.tsx` — `convertToBaseCurrency`;
* `src/pages/reports/CashBook.tsx` — `fetchOpeningBalance`,
  `fetchTransactions` (the file also contains the Bank Book page, an exact
  copy of the same two functions on `selectedBankBook`);
* the General Ledger page — `fetchOpeningBalance`, `fetchTransactions`;
* the Trial Balance page — `fetchTrialBalance` and its `totals`;
* `src/pages/reports/CommissionReport.tsx` — `fetchTransactions`;
* `src/pages/reports/ZakatCalculation.tsx` — `fetchZakatEligibleAccounts`
  and the `totalBalance` / `zakatAmount` computation;
* `src/pages/transactions/EditBankEntry.tsx` — `handleSubmit`.

Database rows (`currencies`, `chart_of_accounts`, `gl_headers`,
`gl_transactions`) are records over `ℚ` and `Nat`; a report computation is a
pure function of a `Db` snapshot, mirroring the per-request fetches of the
source.  Dates (`yyyy-MM-dd` strings, compared lexicographically or via
`Date` objects in the source) are embedded as `Nat` with its order.
-/

namespace AAHisab

/-- `gl_headers.status`: the source compares against the string values
`'draft'`, `'posted'`, `'void'`. -/
inductive Status where
  | draft
  | posted
  | void
deriving DecidableEq, Repr

/-- Conversion direction stored in `currencies.exchange_rate_note`
(`'multiply' | 'divide' | null`). -/
inductive Direction where
  | multiply
  | divide
deriving DecidableEq, Repr

/-- A row of the `currencies` table, as selected by the report pages. -/
structure Currency where
  id : Nat
  rate : ℚ
  is_base : Bool
  exchange_rate_note : Option Direction
deriving DecidableEq, Repr

/-- A row of the `gl_headers` table ("posting group").  `type_code` is the
joined `tbl_trans_type.transaction_type_code`. -/
structure Header where
  id : Nat
  transaction_date : Nat
  status : Status
  type_code : String
deriving DecidableEq, Repr

/-- A row of the `gl_transactions` table ("line").  `debit` / `credit` are
the base-currency amounts, `debit_doc_currency` / `credit_doc_currency` the
document-currency amounts, `amount` the raw `amount` column used by the
commission report. -/
structure Line where
  id : Nat
  header_id : Nat
  account_id : Nat
  debit : ℚ
  credit : ℚ
  debit_doc_currency : ℚ
  credit_doc_currency : ℚ
  amount : ℚ
  exchange_rate : ℚ
  currency_id : Nat
deriving DecidableEq, Repr

/-- A row of the `chart_of_accounts` table. -/
structure Account where
  id : Nat
  code : String
  name : String
  subcategory : String
  is_active : Bool
  zakat_eligible : Bool
deriving DecidableEq, Repr

/-- An in-memory snapshot of the relational store, as fetched by one report
computation. -/
structure Db where
  headers : List Header
  lines : List Line
  accounts : List Account
deriving DecidableEq, Repr

/-- The relational join `gl_transactions.header_id → gl_headers.id`. -/
def findHeader (db : Db) (headerId : Nat) : Option Header :=
  db.headers.find? (fun h => h.id == headerId)

/- ## JavaScript number semantics

`convertToBaseCurrency` can divide by a zero rate; JavaScript division then
produces `Infinity` / `-Infinity` / `NaN` rather than an error, so the
embedding of that function keeps those values explicit. -/

/-- Result of a JavaScript arithmetic operation: a finite value or one of
the non-finite floats. -/
inductive JsNumber where
  | num (q : ℚ)
  | posInf
  | negInf
  | nan
deriving DecidableEq, Repr

/-- JavaScript division `a / b` (for finite operands): division by zero
yields `Infinity`, `-Infinity`, or `NaN` (for `0 / 0`). -/
def jsDiv (a b : ℚ) : JsNumber :=
  if b = 0 then
    if 0 < a then JsNumber.posInf
    else if a < 0 then JsNumber.negInf
    else JsNumber.nan
  else JsNumber.num (a / b)

/- ## Conversion Function — `Dashboard.tsx`, `convertToBaseCurrency` -/

/-- `Dashboard.tsx` lines 599–619.  `ratesMap` embeds the
`Record<string, Currency>` built from the `currencies` table;
`baseCurrencyId` the id of the base currency.  The source returns the
amount unchanged when the currency id is the base currency id or the
currency is missing from the map, multiplies or divides by `rate` according
to `exchange_rate_note`, and falls back to the amount otherwise. -/
def convertToBaseCurrency (amount : ℚ) (currencyId : Nat)
    (ratesMap : List (Nat × Currency)) (baseCurrencyId : Nat) : JsNumber :=
  if currencyId = baseCurrencyId then JsNumber.num amount
  else
    match ratesMap.lookup currencyId with
    | none => JsNumber.num amount
    | some currency =>
      match currency.exchange_rate_note with
      | some Direction.multiply => JsNumber.num (amount * currency.rate)
      | some Direction.divide => jsDiv amount currency.rate
      | none => JsNumber.num amount

/-- A currency row with a zero rate under `divide`, for exercising the
division-by-zero path. -/
def zeroRateDivideCurrency : Currency :=
  { id := 2, rate := 0, is_base := false,
    exchange_rate_note := some Direction.divide }

/-- A one-entry rates map holding `zeroRateDivideCurrency` under id 2. -/
def zeroRateRatesMap : List (Nat × Currency) :=
  [(2, zeroRateDivideCurrency)]

/- ## Balance Calculator — opening balance

Three relevant pieces of source: the specification's `openingBalance`
contract, the General Ledger page's `fetchOpeningBalance` (which follows
it), and the Cash Book / Bank Book pages' `fetchOpeningBalance` (which does
not). -/

/-- Modelled from the spec (§4.3), for comparison with the code:
`openingBalance(accountId, asOfDateExclusive, statusFilter)` is the sum of
`debitBase - creditBase` over all lines of the account whose owning posting
group has `status ∈ statusFilter` and `transactionDate < asOfDateExclusive`. -/
def openingBalanceSpec (db : Db) (accountId : Nat) (asOfDateExclusive : Nat)
    (statusFilter : List Status) : ℚ :=
  ((db.lines.filter fun l =>
      l.account_id == accountId &&
      match findHeader db l.header_id with
      | some h =>
        decide (h.status ∈ statusFilter) && decide (h.transaction_date < asOfDateExclusive)
      | none => false).map
    fun l => l.debit - l.credit).sum

/-- The rows selected by the General Ledger page's `fetchOpeningBalance`
query: lines of the account whose (inner-joined) header is `posted` and
dated strictly before the start date. -/
def glOpeningRows (db : Db) (accountId : Nat) (startDate : Nat) : List Line :=
  db.lines.filter fun l =>
    l.account_id == accountId &&
    match findHeader db l.header_id with
    | some h => h.status == Status.posted && decide (h.transaction_date < startDate)
    | none => false

/-- General Ledger `fetchOpeningBalance` (part_002 lines 262–302): fetch
the rows, accumulate `totalDebit` and `totalCredit` over the base-currency
`debit` / `credit` columns, and return `totalDebit - totalCredit`. -/
def glFetchOpeningBalance (db : Db) (accountId : Nat) (startDate : Nat) : ℚ :=
  let rows := glOpeningRows db accountId startDate
  let totalDebit := (rows.map fun l => l.debit).sum
  let totalCredit := (rows.map fun l => l.credit).sum
  totalDebit - totalCredit

/-- The row shape produced by the Cash Book / Bank Book
`fetchOpeningBalance` query (`CashBook.tsx` lines 136–177): the select list
is `id, debit, credit, header(...)`, so the row has no
`debit_doc_currency` / `credit_doc_currency` properties; reading them in
JavaScript yields `undefined`, embedded as `none`. -/
structure CashBookOpeningRow where
  id : Nat
  debit : ℚ
  credit : ℚ
  debit_doc_currency : Option ℚ
  credit_doc_currency : Option ℚ
deriving DecidableEq, Repr

/-- Projection of a fetched line onto the Cash Book opening-balance select
list: the document-currency columns are not selected, hence absent. -/
def cashBookOpeningSelect (l : Line) : CashBookOpeningRow :=
  { id := l.id, debit := l.debit, credit := l.credit,
    debit_doc_currency := none, credit_doc_currency := none }

/-- `Number(x) || 0` applied to a possibly-absent property: an absent
property is `undefined`, `Number(undefined)` is `NaN`, and `NaN || 0` is
`0`; a present numeric value is returned as is (`0 || 0` is `0`). -/
def numberOrZero : Option ℚ → ℚ
  | none => 0
  | some q => q

/-- Cash Book / Bank Book `fetchOpeningBalance` (`CashBook.tsx` lines
136–177, repeated verbatim in the Bank Book page): same filter as the
General Ledger copy, but the accumulation reads
`transaction.debit_doc_currency` / `transaction.credit_doc_currency` —
properties the query never selected. -/
def cashBookFetchOpeningBalance (db : Db) (accountId : Nat) (startDate : Nat) : ℚ :=
  let rows := (glOpeningRows db accountId startDate).map cashBookOpeningSelect
  let totalDebit := (rows.map fun r => numberOrZero r.debit_doc_currency).sum
  let totalCredit := (rows.map fun r => numberOrZero r.credit_doc_currency).sum
  totalDebit - totalCredit

/- ## Cash Book / Bank Book report — `fetchTransactions`
(`CashBook.tsx` lines 179–295; repeated verbatim in the Bank Book page) -/

/-- Sum of base-currency debits over the lines of one posting group. -/
def groupDebit (db : Db) (headerId : Nat) : ℚ :=
  ((db.lines.filter fun l => l.header_id == headerId).map fun l => l.debit).sum

/-- Sum of base-currency credits over the lines of one posting group. -/
def groupCredit (db : Db) (headerId : Nat) : ℚ :=
  ((db.lines.filter fun l => l.header_id == headerId).map fun l => l.credit).sum

/-- Headers fetched by the Cash Book `fetchTransactions` query: posted and
inside the date range, ordered by `transaction_date` ascending. -/
def cashBookHeaders (db : Db) (startDate endDate : Nat) : List Header :=
  (db.headers.filter fun h =>
      h.status == Status.posted &&
      decide (startDate ≤ h.transaction_date) &&
      decide (h.transaction_date ≤ endDate)).mergeSort
    fun a b => a.transaction_date ≤ b.transaction_date

/-- Lines fetched by the Cash Book `fetchTransactions` query: the selected
account's lines whose `header_id` is among the fetched headers. -/
def cashBookLines (db : Db) (accountId : Nat) (hs : List Header) : List Line :=
  db.lines.filter fun l =>
    l.account_id == accountId && hs.any fun h => h.id == l.header_id

/-- The `headerMap.get(header_id)` date used by the sort comparator and the
row (`0` stands for the unreachable missing-header case: the lines were
filtered to the fetched headers). -/
def headerDate (hs : List Header) (l : Line) : Nat :=
  match hs.find? fun h => h.id == l.header_id with
  | some h => h.transaction_date
  | none => 0

/-- One displayed Cash Book row.  `debit` / `credit` are the
document-currency amounts and `document_amount` the base-currency net, as
the source maps them; presentation-only fields (narration, currency code)
are omitted. -/
structure CashBookRow where
  date : Nat
  debit : ℚ
  credit : ℚ
  document_amount : ℚ
  exchange_rate : ℚ
  balance : ℚ
deriving DecidableEq, Repr

/-- The `.map` of Cash Book `fetchTransactions`: thread the running balance
through the date-sorted lines, adding the document-currency
`debit - credit` of each line (`transaction.exchange_rate || 1` turns a
zero or missing rate into 1). -/
def cashBookAttachBalance (hs : List Header) : ℚ → List Line → List CashBookRow
  | _, [] => []
  | run, l :: ls =>
    let debit := l.debit_doc_currency
    let credit := l.credit_doc_currency
    let bal := run + (debit - credit)
    { date := headerDate hs l, debit := debit, credit := credit,
      document_amount := l.debit - l.credit,
      exchange_rate := if l.exchange_rate = 0 then 1 else l.exchange_rate,
      balance := bal } :: cashBookAttachBalance hs bal ls

/-- Cash Book `fetchTransactions`: opening balance, posted in-range
headers, the account's lines for those headers, a stable sort by header
date, and the running-balance rows.  No debit/credit balance check of any
posting group appears anywhere on this path. -/
def cashBookFetchTransactions (db : Db) (accountId startDate endDate : Nat) :
    List CashBookRow :=
  let openingBalanceAmount := cashBookFetchOpeningBalance db accountId startDate
  let hs := cashBookHeaders db startDate endDate
  let txs := cashBookLines db accountId hs
  let sorted := txs.mergeSort fun a b => headerDate hs a ≤ headerDate hs b
  cashBookAttachBalance hs openingBalanceAmount sorted

/-- Snapshot for the C3 counterexample: one posted group (id 20) whose two
lines debit 100 to the cash-book account 1 but credit only 99 to account 2
— unbalanced by a full unit, far beyond the 0.01 tolerance. -/
def unbalancedDb : Db :=
  { headers := [{ id := 20, transaction_date := 3, status := Status.posted,
                  type_code := "GENT" }],
    lines := [{ id := 1, header_id := 20, account_id := 1, debit := 100,
                credit := 0, debit_doc_currency := 100, credit_doc_currency := 0,
                amount := 100, exchange_rate := 1, currency_id := 1 },
              { id := 2, header_id := 20, account_id := 2, debit := 0,
                credit := 99, debit_doc_currency := 0, credit_doc_currency := 99,
                amount := 99, exchange_rate := 1, currency_id := 1 }],
    accounts := [] }

/- ## General Ledger report — `fetchTransactions` (part_002 lines 304–441) -/

/-- Headers fetched by the General Ledger `fetchTransactions` query: all
statuses inside the date range, ordered by `transaction_date` ascending. -/
def glHeaders (db : Db) (startDate endDate : Nat) : List Header :=
  (db.headers.filter fun h =>
      decide (startDate ≤ h.transaction_date) &&
      decide (h.transaction_date ≤ endDate)).mergeSort
    fun a b => a.transaction_date ≤ b.transaction_date

/-- One mapped General Ledger transaction before running-balance
annotation, mirroring the object literal of the source (`rawDate` is the
raw header date kept for sorting; narration and currency code are
presentation-only and omitted). -/
structure GlTx where
  rawDate : Nat
  document_currency_amount : ℚ
  currency_id : Nat
  exchange_rate : ℚ
  debit : ℚ
  credit : ℚ
  debit_doc_currency : ℚ
  credit_doc_currency : ℚ
deriving DecidableEq, Repr

/-- The General Ledger `.map` over fetched lines: look the header up in the
fetched header list, returning `null` (dropped by the subsequent filter)
when absent. -/
def glMapLine (hs : List Header) (l : Line) : Option GlTx :=
  match hs.find? fun h => h.id == l.header_id with
  | none => none
  | some h =>
    some { rawDate := h.transaction_date,
           document_currency_amount :=
             if 0 < l.debit_doc_currency then l.debit_doc_currency
             else -l.credit_doc_currency,
           currency_id := l.currency_id,
           exchange_rate := if l.exchange_rate = 0 then 1 else l.exchange_rate,
           debit := l.debit, credit := l.credit,
           debit_doc_currency := l.debit_doc_currency,
           credit_doc_currency := l.credit_doc_currency }

/-- The General Ledger's `mappedTransactions`: the account's lines for the
fetched headers, mapped and null-filtered. -/
def glMappedTransactions (db : Db) (accountId startDate endDate : Nat) : List GlTx :=
  (db.lines.filter fun l =>
      l.account_id == accountId &&
      (glHeaders db startDate endDate).any fun h => h.id == l.header_id).filterMap
    (glMapLine (glHeaders db startDate endDate))

/-- `mappedTransactions.sort((a, b) => a.rawDate.getTime() - b.rawDate.getTime())`:
JavaScript's `Array.prototype.sort` is stable, embedded as a stable merge
sort on the raw date. -/
def glSortedTransactions (db : Db) (accountId startDate endDate : Nat) : List GlTx :=
  (glMappedTransactions db accountId startDate endDate).mergeSort
    fun a b => a.rawDate ≤ b.rawDate

/-- A final General Ledger row: the mapped transaction with its
base-currency and document-currency running balances. -/
structure GlRow where
  tx : GlTx
  running_balance : ℚ
  running_balance_doc : ℚ
deriving DecidableEq, Repr

/-- The running-balance pass over the sorted transactions: the base
running balance starts from the opening balance, the document-currency one
from 0. -/
def glAttachRunning : ℚ → ℚ → List GlTx → List GlRow
  | _, _, [] => []
  | rb, rbd, t :: ts =>
    let rb2 := rb + (t.debit - t.credit)
    let rbd2 := rbd + (t.debit_doc_currency - t.credit_doc_currency)
    { tx := t, running_balance := rb2, running_balance_doc := rbd2 } ::
      glAttachRunning rb2 rbd2 ts

/-- General Ledger `fetchTransactions`: opening balance, mapped in-range
lines, stable sort by date, running balances. -/
def glFetchTransactions (db : Db) (accountId startDate endDate : Nat) : List GlRow :=
  glAttachRunning (glFetchOpeningBalance db accountId startDate) 0
    (glSortedTransactions db accountId startDate endDate)

/- ## Trial Balance report — `fetchTrialBalance`
(second page of `CommissionReport.tsx`, lines 1293–1344 and 1830–1833) -/

/-- The Trial Balance line filter
`['draft', 'posted'].includes(t.header.status) && t.header.transaction_date <= selectedDate`
(the header comes from an inner join, so a line without a header is
dropped). -/
def tbKeep (db : Db) (asOfDate : Nat) (l : Line) : Bool :=
  match findHeader db l.header_id with
  | some h =>
    (h.status == Status.draft || h.status == Status.posted) &&
      decide (h.transaction_date ≤ asOfDate)
  | none => false

/-- `account.gl_transactions` after the Trial Balance filter. -/
def tbLines (db : Db) (asOfDate : Nat) (a : Account) : List Line :=
  db.lines.filter fun l => l.account_id == a.id && tbKeep db asOfDate l

/-- `totalDebit` of one Trial Balance account. -/
def tbTotalDebitOf (db : Db) (asOfDate : Nat) (a : Account) : ℚ :=
  ((tbLines db asOfDate a).map fun l => l.debit).sum

/-- `totalCredit` of one Trial Balance account. -/
def tbTotalCreditOf (db : Db) (asOfDate : Nat) (a : Account) : ℚ :=
  ((tbLines db asOfDate a).map fun l => l.credit).sum

/-- The account's net position as of end of `asOfDate` (not a named value
in the source, where it appears as the ternary comparisons of
`totalDebit` and `totalCredit`). -/
def tbNet (db : Db) (asOfDate : Nat) (a : Account) : ℚ :=
  tbTotalDebitOf db asOfDate a - tbTotalCreditOf db asOfDate a

/-- One formatted Trial Balance account row. -/
structure TbRow where
  code : String
  name : String
  subcategory : String
  debit : ℚ
  credit : ℚ
deriving DecidableEq, Repr

/-- The row built for one account:
`debit: totalDebit > totalCredit ? totalDebit - totalCredit : 0` and
symmetrically for `credit`. -/
def tbRow (db : Db) (asOfDate : Nat) (a : Account) : TbRow :=
  let totalDebit := tbTotalDebitOf db asOfDate a
  let totalCredit := tbTotalCreditOf db asOfDate a
  { code := a.code, name := a.name, subcategory := a.subcategory,
    debit := if totalDebit > totalCredit then totalDebit - totalCredit else 0,
    credit := if totalCredit > totalDebit then totalCredit - totalDebit else 0 }

/-- `fetchTrialBalance`: map every account of the snapshot to its row and
keep the rows with `debit > 0 || credit > 0`.  (The query orders accounts
by code; the order is irrelevant to membership and totals, so the snapshot
order is kept.) -/
def fetchTrialBalance (db : Db) (asOfDate : Nat) : List TbRow :=
  (db.accounts.map (tbRow db asOfDate)).filter fun r => r.debit > 0 || r.credit > 0

/-- The Debit-column total of the Trial Balance (`totals.debit`, computed
over the filtered account rows held in component state). -/
def tbTotalDebit (db : Db) (asOfDate : Nat) : ℚ :=
  ((fetchTrialBalance db asOfDate).map fun r => r.debit).sum

/-- The Credit-column total of the Trial Balance (`totals.credit`). -/
def tbTotalCredit (db : Db) (asOfDate : Nat) : ℚ :=
  ((fetchTrialBalance db asOfDate).map fun r => r.credit).sum

/-- The posting group of `tbWitnessDb`. -/
def tbWitnessHeader : Header :=
  { id := 30, transaction_date := 4, status := Status.posted,
    type_code := "GENT" }

/-- The first account of `tbWitnessDb`. -/
def tbAccount1 : Account :=
  { id := 1, code := "1001", name := "Cash", subcategory := "Assets",
    is_active := true, zakat_eligible := true }

/-- The second account of `tbWitnessDb`. -/
def tbAccount2 : Account :=
  { id := 2, code := "2001", name := "Payable", subcategory := "Liabilities",
    is_active := true, zakat_eligible := false }

/-- Snapshot for the C5 witness: two accounts, one balanced posted group
dated 4 debiting 30 to account 1 and crediting 30 to account 2. -/
def tbWitnessDb : Db :=
  { headers := [tbWitnessHeader],
    lines := [{ id := 1, header_id := 30, account_id := 1, debit := 30,
                credit := 0, debit_doc_currency := 30, credit_doc_currency := 0,
                amount := 30, exchange_rate := 1, currency_id := 1 },
              { id := 2, header_id := 30, account_id := 2, debit := 0,
                credit := 30, debit_doc_currency := 0, credit_doc_currency := 30,
                amount := 30, exchange_rate := 1, currency_id := 1 }],
    accounts := [tbAccount1, tbAccount2] }

/- ## Commission report — `fetchTransactions`
(`CommissionReport.tsx` lines 161–272) -/

/-- The hard-coded commission transaction-type codes of the query's
`.in('tbl_trans_type.transaction_type_code', ...)`. -/
def commissionTypeCodes : List String := ["GENT", "IPTC", "MNGC", "BNKT"]

/-- Headers fetched by the commission query: posted, inside the date range,
with a type code among the requested ones. -/
def commissionHeaders (db : Db) (startDate endDate : Nat) (codes : List String) :
    List Header :=
  db.headers.filter fun h =>
    h.status == Status.posted &&
    decide (startDate ≤ h.transaction_date) &&
    decide (h.transaction_date ≤ endDate) &&
    codes.contains h.type_code

/-- `header.gl_transactions`: all lines of one fetched header. -/
def headerLines (db : Db) (h : Header) : List Line :=
  db.lines.filter fun l => l.header_id == h.id

/-- `t.debit > 0 && t.account_id !== commissionAccountId`: the customer
line predicate. -/
def isCustomerLine (commissionAccountId : Nat) (t : Line) : Bool :=
  decide (0 < t.debit) && !(t.account_id == commissionAccountId)

/-- `t.credit > 0 && t.account_id !== commissionAccountId`: the supplier
line predicate. -/
def isSupplierLine (commissionAccountId : Nat) (t : Line) : Bool :=
  decide (0 < t.credit) && !(t.account_id == commissionAccountId)

/-- One commission report row (customer/supplier names are shown through
their account ids; the supplier may be absent, rendered as an empty
string by the source). -/
structure CommissionRow where
  date : Nat
  type_code : String
  customer_account : Nat
  supplier_account : Option Nat
  customer_amount : ℚ
  commission : ℚ
deriving DecidableEq, Repr

/-- The body of the commission `data.map(header => ...)`: find the
customer, supplier and commission lines; if the customer and commission
lines both exist, build the row — `commission` is
`Math.abs(debit || credit || 0)` of the commission line (the first nonzero
of debit and credit, in absolute value) and `customer_amount` is
`Math.abs(customerTransaction.amount)`; otherwise return `null`. -/
def commissionRowOf (db : Db) (commissionAccountId : Nat) (h : Header) :
    Option CommissionRow :=
  let ls := headerLines db h
  match ls.find? (isCustomerLine commissionAccountId),
        ls.find? (fun t => t.account_id == commissionAccountId) with
  | some customer, some commission =>
    some { date := h.transaction_date, type_code := h.type_code,
           customer_account := customer.account_id,
           supplier_account :=
             (ls.find? (isSupplierLine commissionAccountId)).map
               fun t => t.account_id,
           customer_amount := |customer.amount|,
           commission :=
             |if commission.debit ≠ 0 then commission.debit else commission.credit| }
  | _, _ => none

/-- Commission `fetchTransactions`: map the fetched headers and drop the
`null` results. -/
def commissionFetchTransactions (db : Db) (commissionAccountId : Nat)
    (startDate endDate : Nat) (codes : List String) : List CommissionRow :=
  (commissionHeaders db startDate endDate codes).filterMap
    (commissionRowOf db commissionAccountId)

/-- The posting group of `commissionCounterDb`. -/
def commissionCounterHeader : Header :=
  { id := 40, transaction_date := 3, status := Status.posted, type_code := "GENT" }

/-- The single (customer) line of `commissionCounterDb`. -/
def commissionCounterLine : Line :=
  { id := 1, header_id := 40, account_id := 2, debit := 5, credit := 0,
    debit_doc_currency := 5, credit_doc_currency := 0, amount := 5,
    exchange_rate := 1, currency_id := 1 }

/-- Snapshot for the C7 counterexample: a posted `GENT` group holding a
customer line (positive debit on account 2) but no line on the commission
account 9. -/
def commissionCounterDb : Db :=
  { headers := [commissionCounterHeader],
    lines := [commissionCounterLine],
    accounts := [] }

/- ## Zakat report — `ZakatCalculation.tsx` -/

/-- The Zakat line filter
`transaction.gl_headers && status === 'posted' && transaction_date <= selectedDate`
(the `gl_headers` join may be null, embedded as the `none` case). -/
def zakatKeep (db : Db) (asOfDate : Nat) (l : Line) : Bool :=
  match findHeader db l.header_id with
  | some h => h.status == Status.posted && decide (h.transaction_date ≤ asOfDate)
  | none => false

/-- One account's balance `SUM(debit) - SUM(credit)` over its filtered
lines (`fetchZakatEligibleAccounts`, lines 118–157). -/
def zakatAccountBalance (db : Db) (asOfDate : Nat) (a : Account) : ℚ :=
  ((db.lines.filter fun l => l.account_id == a.id && zakatKeep db asOfDate l).map
    fun l => l.debit - l.credit).sum

/-- The accounts of the Zakat report:
`.eq('zakat_eligible', true).eq('is_active', true)`. -/
def zakatEligibleAccounts (db : Db) : List Account :=
  db.accounts.filter fun a => a.zakat_eligible && a.is_active

/-- `totalBalance`: the sum of the displayed accounts' balances (with an
empty search filter the displayed accounts are all fetched accounts). -/
def zakatTotalBalance (db : Db) (asOfDate : Nat) : ℚ :=
  ((zakatEligibleAccounts db).map fun a => zakatAccountBalance db asOfDate a).sum

/-- `zakatAmount = totalBalance * 0.025`. -/
def zakatAmount (db : Db) (asOfDate : Nat) : ℚ :=
  zakatTotalBalance db asOfDate * 0.025

/- ## Edit Bank Entry — `handleSubmit`
(`EditBankEntry.tsx` lines 271–363) -/

/-- A `gl_transactions` row as inserted by `handleSubmit`. -/
structure NewGlTransaction where
  header_id : Nat
  account_id : Nat
  debit : ℚ
  credit : ℚ
  debit_doc_currency : ℚ
  credit_doc_currency : ℚ
  exchange_rate : ℚ
  currency_id : Nat
deriving DecidableEq, Repr

/-- The inline base-currency conversion of `handleSubmit`: multiply or
divide the document amount by the entered exchange rate according to the
bank book currency's `exchange_rate_note`, else keep it (base currency). -/
def editBankEntryBaseAmount (amount exchangeRate : ℚ)
    (rateNote : Option Direction) : ℚ :=
  match rateNote with
  | some Direction.multiply => amount * exchangeRate
  | some Direction.divide => amount / exchangeRate
  | none => amount

/-- The two replacement lines `handleSubmit` inserts after deleting the
posting group's existing lines: one on the bank book account, one on the
selected counterpart account, with debit and credit sides chosen by the
sign of the entered amount. -/
def editBankEntryGlTransactions (headerId bankBookId counterAccountId currencyId : Nat)
    (amount exchangeRate : ℚ) (rateNote : Option Direction) : List NewGlTransaction :=
  let baseAmount := editBankEntryBaseAmount amount exchangeRate rateNote
  [{ header_id := headerId, account_id := bankBookId,
     debit := if 0 < amount then baseAmount else 0,
     credit := if amount < 0 then |baseAmount| else 0,
     debit_doc_currency := if 0 < amount then amount else 0,
     credit_doc_currency := if amount < 0 then |amount| else 0,
     exchange_rate := exchangeRate, currency_id := currencyId },
   { header_id := headerId, account_id := counterAccountId,
     debit := if amount < 0 then |baseAmount| else 0,
     credit := if 0 < amount then baseAmount else 0,
     debit_doc_currency := if amount < 0 then |amount| else 0,
     credit_doc_currency := if 0 < amount then amount else 0,
     exchange_rate := exchangeRate, currency_id := currencyId }]

/-- A one-line snapshot for the C1 counterexample: a single posted line of
account 1 dated before the cutoff, with base debit 100. -/
def openingCounterDb : Db :=
  { headers := [{ id := 10, transaction_date := 0, status := Status.posted,
                  type_code := "GENT" }],
    lines := [{ id := 1, header_id := 10, account_id := 1, debit := 100,
                credit := 0, debit_doc_currency := 50, credit_doc_currency := 0,
                amount := 50, exchange_rate := 2, currency_id := 2 }],
    accounts := [] }

end AAHisab

namespace AAHisab

/-- Claim C1 (amended): the General Ledger's `fetchOpeningBalance` returns
exactly the specification's `openingBalance` with `statusFilter = {Posted}`
— the sum of base-currency `debit - credit` over the account's lines whose
posting group is posted and dated strictly before the cutoff, 0 when no
lines match — while the Cash Book and Bank Book copies always return 0,
because they accumulate document-currency properties absent from their
query's select list. -/
theorem openingBalance_gl_spec_cashBook_zero (db : Db) (accountId : Nat)
    (startDate : Nat) :
    glFetchOpeningBalance db accountId startDate =
      openingBalanceSpec db accountId startDate [Status.posted] ∧
    cashBookFetchOpeningBalance db accountId startDate = 0 := by
  constructor
  · unfold glFetchOpeningBalance openingBalanceSpec glOpeningRows
    have hfilter :
        (db.lines.filter fun l =>
          l.account_id == accountId &&
          match findHeader db l.header_id with
          | some h => h.status == Status.posted && decide (h.transaction_date < startDate)
          | none => false) =
        (db.lines.filter fun l =>
          l.account_id == accountId &&
          match findHeader db l.header_id with
          | some h =>
            decide (h.status ∈ [Status.posted]) && decide (h.transaction_date < startDate)
          | none => false) := by
      apply List.filter_congr
      intro l _
      cases hf : findHeader db l.header_id with
      | none => simp [hf]
      | some h => cases hs : h.status <;> simp [hf, hs]
    rw [← hfilter]
    generalize (db.lines.filter fun l =>
      l.account_id == accountId &&
      match findHeader db l.header_id with
      | some h => h.status == Status.posted && decide (h.transaction_date < startDate)
      | none => false) = rows
    induction rows with
    | nil => simp
    | cons x xs ih => simp only [List.map_cons, List.sum_cons] at ih ⊢; linarith
  · show (((glOpeningRows db accountId startDate).map cashBookOpeningSelect).map
        fun r => numberOrZero r.debit_doc_currency).sum -
      (((glOpeningRows db accountId startDate).map cashBookOpeningSelect).map
        fun r => numberOrZero r.credit_doc_currency).sum = 0
    rw [List.map_map, List.map_map]
    have h1 : ((fun r => numberOrZero r.debit_doc_currency) ∘ cashBookOpeningSelect) =
        fun _ : Line => (0 : ℚ) := rfl
    have h2 : ((fun r => numberOrZero r.credit_doc_currency) ∘ cashBookOpeningSelect) =
        fun _ : Line => (0 : ℚ) := rfl
    rw [h1, h2]
    simp

/-- Counterexample for C1: on a snapshot with one posted base-currency
debit of 100 dated before the cutoff, the Cash Book / Bank Book
`fetchOpeningBalance` returns 0 while the claimed sum is 100. -/
theorem cashBook_openingBalance_counterexample :
    cashBookFetchOpeningBalance openingCounterDb 1 5 = 0 ∧
    openingBalanceSpec openingCounterDb 1 5 [Status.posted] = 100 ∧
    cashBookFetchOpeningBalance openingCounterDb 1 5 ≠
      openingBalanceSpec openingCounterDb 1 5 [Status.posted] := by
  have h0 : cashBookFetchOpeningBalance openingCounterDb 1 5 = 0 := by
    norm_num [cashBookFetchOpeningBalance, glOpeningRows, openingCounterDb,
      findHeader, cashBookOpeningSelect, numberOrZero, List.filter]
  have h100 : openingBalanceSpec openingCounterDb 1 5 [Status.posted] = 100 := by
    norm_num [openingBalanceSpec, openingCounterDb, findHeader, List.filter]
  refine ⟨h0, h100, by rw [h0, h100]; norm_num⟩

/-- The running-balance pass changes no row content: projecting the rows
back to their transactions returns the sorted input unchanged. -/
theorem glAttachRunning_map_tx (rb rbd : ℚ) (ts : List GlTx) :
    (glAttachRunning rb rbd ts).map (fun r => r.tx) = ts := by
  induction ts generalizing rb rbd with
  | nil => rfl
  | cons t ts ih => simp only [glAttachRunning, List.map_cons, ih]

/-- The Cash Book running-balance pass emits one row per line and copies
each line's document-currency debit and credit into the row unchanged. -/
theorem cashBookAttachBalance_map (hs : List Header) (b : ℚ) (ls : List Line) :
    (cashBookAttachBalance hs b ls).map (fun r => (r.debit, r.credit)) =
      ls.map fun l => (l.debit_doc_currency, l.credit_doc_currency) := by
  induction ls generalizing b with
  | nil => rfl
  | cons l ls ih => simp only [cashBookAttachBalance, List.map_cons, ih]

/-- Counterexample for C3: the posted group 20 of `unbalancedDb` has base
debits 100 against base credits 99 — an imbalance of a full unit, far over
the 0.01 tolerance — yet the Cash Book report includes its line in the
output unchanged; no check runs and nothing is signalled (the computation
has no error outcome at all). -/
theorem cashBook_includes_unbalanced_group :
    groupDebit unbalancedDb 20 = 100 ∧
    groupCredit unbalancedDb 20 = 99 ∧
    cashBookFetchTransactions unbalancedDb 1 0 5 =
      [{ date := 3, debit := 100, credit := 0, document_amount := 100,
         exchange_rate := 1, balance := 100 }] := by
  refine ⟨?_, ?_, ?_⟩
  · norm_num [groupDebit, unbalancedDb, List.filter]
  · norm_num [groupCredit, unbalancedDb, List.filter]
  · show cashBookAttachBalance _ _ _ = _
    simp only [cashBookFetchOpeningBalance, glOpeningRows, cashBookHeaders,
      cashBookLines, headerDate, unbalancedDb, findHeader, List.filter_cons,
      List.filter_nil, cashBookOpeningSelect, numberOrZero, List.find?,
      List.any_cons, List.any_nil, List.mergeSort, cashBookAttachBalance,
      List.map_cons, List.map_nil, List.sum_cons, List.sum_nil]
    norm_num [cashBookAttachBalance, headerDate, findHeader, List.find?]

/-- Claim C3 (amended): the Cash Book / Bank Book report performs no
balance verification at all — it emits exactly one row per in-range line
of the account, with the line's document-currency debit and credit copied
through unchanged, whether or not the owning posting group balances; no
`UnbalancedGroupError` (or any error) exists on this path. -/
theorem cashBook_no_balance_check (db : Db) (accountId startDate endDate : Nat) :
    (cashBookFetchTransactions db accountId startDate endDate).length =
      (cashBookLines db accountId (cashBookHeaders db startDate endDate)).length ∧
    (cashBookFetchTransactions db accountId startDate endDate).map
        (fun r => (r.debit, r.credit)) =
      ((cashBookLines db accountId (cashBookHeaders db startDate endDate)).mergeSort
          fun a b =>
            headerDate (cashBookHeaders db startDate endDate) a ≤
              headerDate (cashBookHeaders db startDate endDate) b).map
        fun l => (l.debit_doc_currency, l.credit_doc_currency) := by
  constructor
  · have h := congrArg List.length
      (cashBookAttachBalance_map (cashBookHeaders db startDate endDate)
        (cashBookFetchOpeningBalance db accountId startDate)
        ((cashBookLines db accountId (cashBookHeaders db startDate endDate)).mergeSort
          fun a b =>
            headerDate (cashBookHeaders db startDate endDate) a ≤
              headerDate (cashBookHeaders db startDate endDate) b))
    simpa [cashBookFetchTransactions] using h
  · exact cashBookAttachBalance_map _ _ _

/-- Claim C4: General Ledger running balances are deterministic — two
computations on one snapshot coincide — and the replayed sequence is the
in-range lines in ascending transaction-date order (a permutation of the
mapped lines, pairwise sorted by date) with ties broken stably: for each
date, the equal-dated transactions appear in exactly their snapshot
order. -/
theorem gl_runningBalances_deterministic (db : Db)
    (accountId startDate endDate : Nat) :
    glFetchTransactions db accountId startDate endDate =
      glFetchTransactions db accountId startDate endDate ∧
    ((glFetchTransactions db accountId startDate endDate).map
        fun r => r.tx.rawDate).Pairwise (· ≤ ·) ∧
    (glSortedTransactions db accountId startDate endDate).Perm
      (glMappedTransactions db accountId startDate endDate) ∧
    ∀ d : Nat,
      (glSortedTransactions db accountId startDate endDate).filter
          (fun t => t.rawDate == d) =
        (glMappedTransactions db accountId startDate endDate).filter
          fun t => t.rawDate == d := by
  have htrans : ∀ a b c : GlTx, (decide (a.rawDate ≤ b.rawDate)) →
      (decide (b.rawDate ≤ c.rawDate)) → (decide (a.rawDate ≤ c.rawDate)) := by
    intro a b c hab hbc
    simp only [decide_eq_true_eq] at hab hbc ⊢
    omega
  have htotal : ∀ a b : GlTx,
      ((decide (a.rawDate ≤ b.rawDate)) || (decide (b.rawDate ≤ a.rawDate))) = true := by
    intro a b
    simp only [Bool.or_eq_true, decide_eq_true_eq]
    omega
  refine ⟨rfl, ?_, List.mergeSort_perm _ _, ?_⟩
  · have hmap : (glFetchTransactions db accountId startDate endDate).map
        (fun r => r.tx.rawDate) =
        (glSortedTransactions db accountId startDate endDate).map
          fun t => t.rawDate := by
      have hcomp : (fun r : GlRow => r.tx.rawDate) =
          (fun t : GlTx => t.rawDate) ∘ (fun r : GlRow => r.tx) := rfl
      rw [glFetchTransactions, hcomp, ← List.map_map, glAttachRunning_map_tx]
    rw [hmap]
    have hsorted := List.sorted_mergeSort htrans htotal
      (glMappedTransactions db accountId startDate endDate)
    rw [List.pairwise_map]
    exact hsorted.imp fun hab => by simpa using hab
  · intro d
    have hsub : List.Sublist
        ((glMappedTransactions db accountId startDate endDate).filter
          fun t => t.rawDate == d)
        (glMappedTransactions db accountId startDate endDate) :=
      List.filter_sublist _
    have hpair : ((glMappedTransactions db accountId startDate endDate).filter
        (fun t => t.rawDate == d)).Pairwise
        fun a b => (decide (a.rawDate ≤ b.rawDate)) = true := by
      apply List.pairwise_of_forall_mem_list
      intro a ha b hb
      have ha' := (List.mem_filter.mp ha).2
      have hb' := (List.mem_filter.mp hb).2
      simp only [beq_iff_eq] at ha' hb'
      simp [ha', hb']
    have hsub2 := List.sublist_mergeSort htrans htotal hpair hsub
    have hall : ∀ a ∈ (glMappedTransactions db accountId startDate endDate).filter
        (fun t => t.rawDate == d), (a.rawDate == d) = true :=
      fun a ha => (List.mem_filter.mp ha).2
    have hsub3 : List.Sublist
        ((glMappedTransactions db accountId startDate endDate).filter
          fun t => t.rawDate == d)
        ((glSortedTransactions db accountId startDate endDate).filter
          fun t => t.rawDate == d) := by
      have h1 := hsub2.filter fun t : GlTx => t.rawDate == d
      rwa [List.filter_eq_self.mpr hall] at h1
    have hperm : ((glSortedTransactions db accountId startDate endDate).filter
        (fun t => t.rawDate == d)).Perm
        ((glMappedTransactions db accountId startDate endDate).filter
          fun t => t.rawDate == d) :=
      (List.mergeSort_perm _ _).filter _
    exact (hsub3.eq_of_length (by rw [hperm.length_eq])).symm

/-- Summing a function over a filtered list equals summing the guarded
function over the whole list. -/
theorem sum_map_filter_eq {α : Type} (p : α → Bool) (f : α → ℚ) (l : List α) :
    ((l.filter p).map f).sum = (l.map fun x => if p x then f x else 0).sum := by
  induction l with
  | nil => rfl
  | cons x xs ih => cases hx : p x <;> simp [List.filter_cons, hx, ih]

/-- Pointwise sums split. -/
theorem sum_map_add {α : Type} (f g : α → ℚ) (l : List α) :
    (l.map fun x => f x + g x).sum = (l.map f).sum + (l.map g).sum := by
  induction l with
  | nil => simp
  | cons x xs ih => simp only [List.map_cons, List.sum_cons, ih]; ring

/-- Pointwise differences split. -/
theorem sum_map_sub {α : Type} (f g : α → ℚ) (l : List α) :
    (l.map fun x => f x - g x).sum = (l.map f).sum - (l.map g).sum := by
  induction l with
  | nil => simp
  | cons x xs ih => simp only [List.map_cons, List.sum_cons, ih]; ring

/-- Double sums over two lists commute. -/
theorem sum_map_swap {α β : Type} (A : List α) (B : List β) (f : α → β → ℚ) :
    (A.map fun a => (B.map (f a)).sum).sum =
      (B.map fun b => (A.map fun a => f a b).sum).sum := by
  induction A with
  | nil => simp
  | cons a as ih =>
    simp only [List.map_cons, List.sum_cons, ih, ← sum_map_add]

/-- A keyed sum with no hit vanishes. -/
theorem sum_map_key_zero {α : Type} (key : α → Nat) (k : Nat) (g : α → ℚ)
    (A : List α) (habs : ∀ a ∈ A, key a ≠ k) :
    (A.map fun a => if k == key a then g a else 0).sum = 0 := by
  induction A with
  | nil => rfl
  | cons a as ih =>
    have hne : ¬ ((k == key a) = true) := by
      simp only [beq_iff_eq]
      exact fun e => habs a (List.mem_cons_self a as) e.symm
    simp only [List.map_cons, List.sum_cons, if_neg hne,
      ih fun x hx => habs x (List.mem_cons_of_mem a hx), zero_add]

/-- A keyed sum over a list with pairwise-distinct keys reduces to the
unique hit. -/
theorem sum_map_key_single {α : Type} (key : α → Nat) (k : Nat) (g : α → ℚ)
    (A : List α) (a0 : α) (hnd : (A.map key).Nodup) (ha0 : a0 ∈ A)
    (hk : key a0 = k) :
    (A.map fun a => if k == key a then g a else 0).sum = g a0 := by
  induction A with
  | nil => cases ha0
  | cons a as ih =>
    rw [List.map_cons] at hnd
    have hnd' := List.nodup_cons.mp hnd
    rcases List.mem_cons.mp ha0 with heq | hmem
    · subst heq
      have hz : (as.map fun x => if k == key x then g x else 0).sum = 0 := by
        apply sum_map_key_zero
        intro x hx e
        apply hnd'.1
        rw [hk, ← e]
        exact List.mem_map_of_mem key hx
      have hpos : (k == key a0) = true := by simp [hk]
      rw [List.map_cons, List.sum_cons, if_pos hpos, hz, add_zero]
    · have hne : ¬ ((k == key a) = true) := by
        simp only [beq_iff_eq]
        intro e
        apply hnd'.1
        rw [← e, ← hk]
        exact List.mem_map_of_mem key hmem
      rw [List.map_cons, List.sum_cons, if_neg hne, zero_add]
      exact ih hnd'.2 hmem

/-- `find?` by key on a list with pairwise-distinct keys returns the
member itself. -/
theorem find?_key_self {α : Type} (key : α → Nat) (L : List α) (x : α)
    (hnd : (L.map key).Nodup) (hmem : x ∈ L) :
    L.find? (fun y => key y == key x) = some x := by
  induction L with
  | nil => cases hmem
  | cons a as ih =>
    rw [List.map_cons] at hnd
    have hnd' := List.nodup_cons.mp hnd
    rcases List.mem_cons.mp hmem with heq | hmem
    · subst heq
      simp [List.find?_cons]
    · have hne : (key a == key x) = false := by
        simp only [beq_eq_false_iff_ne, ne_eq]
        intro e
        apply hnd'.1
        rw [e]
        exact List.mem_map_of_mem key hmem
      rw [List.find?_cons, hne]
      exact ih hnd'.2 hmem

/-- The Trial Balance net of an account is the specification's
`openingBalance` at `asOfDate + 1` with `statusFilter = {Draft, Posted}`. -/
theorem tbNet_eq_spec (db : Db) (asOfDate : Nat) (a : Account) :
    tbNet db asOfDate a =
      openingBalanceSpec db a.id (asOfDate + 1) [Status.draft, Status.posted] := by
  unfold tbNet tbTotalDebitOf tbTotalCreditOf openingBalanceSpec tbLines
  rw [← sum_map_sub]
  have hfilt : (db.lines.filter fun l => l.account_id == a.id && tbKeep db asOfDate l) =
      db.lines.filter fun l =>
        l.account_id == a.id &&
        match findHeader db l.header_id with
        | some h =>
          decide (h.status ∈ [Status.draft, Status.posted]) &&
            decide (h.transaction_date < asOfDate + 1)
        | none => false := by
    apply List.filter_congr
    intro l _
    unfold tbKeep
    cases hf : findHeader db l.header_id with
    | none => simp [hf]
    | some h =>
      cases hs : h.status <;>
        simp [hf, hs, Nat.lt_succ_iff]
  rw [hfilt]

/-- Claim C5: the Trial Balance computes each active account's net over
lines with status Draft or Posted dated on or before the as-of date, puts
a Debit figure of `net` when `net > 0`, a Credit figure of `|net|` when
`net < 0`, and omits the account's row when `net = 0`. -/
theorem trialBalance_classification (db : Db) (asOfDate : Nat) (a : Account)
    (hmem : a ∈ db.accounts) (hactive : a.is_active = true) :
    tbNet db asOfDate a =
      openingBalanceSpec db a.id (asOfDate + 1) [Status.draft, Status.posted] ∧
    (0 < tbNet db asOfDate a →
      tbRow db asOfDate a ∈ fetchTrialBalance db asOfDate ∧
      (tbRow db asOfDate a).debit = tbNet db asOfDate a ∧
      (tbRow db asOfDate a).credit = 0) ∧
    (tbNet db asOfDate a < 0 →
      tbRow db asOfDate a ∈ fetchTrialBalance db asOfDate ∧
      (tbRow db asOfDate a).debit = 0 ∧
      (tbRow db asOfDate a).credit = -tbNet db asOfDate a) ∧
    (tbNet db asOfDate a = 0 →
      tbRow db asOfDate a ∉ fetchTrialBalance db asOfDate) := by
  have hnet : tbNet db asOfDate a =
      tbTotalDebitOf db asOfDate a - tbTotalCreditOf db asOfDate a := rfl
  refine ⟨tbNet_eq_spec db asOfDate a, ?_, ?_, ?_⟩
  · intro hpos
    have hlt : tbTotalCreditOf db asOfDate a < tbTotalDebitOf db asOfDate a := by
      rw [hnet] at hpos; linarith
    have hdeb : (tbRow db asOfDate a).debit = tbNet db asOfDate a := by
      simp [tbRow, hlt, hnet, gt_iff_lt]
    have hcred : (tbRow db asOfDate a).credit = 0 := by
      simp [tbRow, not_lt.mpr (le_of_lt hlt), gt_iff_lt]
    refine ⟨List.mem_filter.mpr ⟨List.mem_map_of_mem _ hmem, ?_⟩, hdeb, hcred⟩
    simp only [hdeb, hcred, Bool.or_eq_true, decide_eq_true_eq]
    exact Or.inl hpos
  · intro hneg
    have hlt : tbTotalDebitOf db asOfDate a < tbTotalCreditOf db asOfDate a := by
      rw [hnet] at hneg; linarith
    have hdeb : (tbRow db asOfDate a).debit = 0 := by
      simp [tbRow, not_lt.mpr (le_of_lt hlt), gt_iff_lt]
    have hcred : (tbRow db asOfDate a).credit = -tbNet db asOfDate a := by
      simp only [tbRow, hnet, gt_iff_lt, if_pos hlt]
      ring_nf
    refine ⟨List.mem_filter.mpr ⟨List.mem_map_of_mem _ hmem, ?_⟩, hdeb, hcred⟩
    simp only [hdeb, hcred, Bool.or_eq_true, decide_eq_true_eq]
    refine Or.inr (by linarith)
  · intro hzero
    have heq : tbTotalDebitOf db asOfDate a = tbTotalCreditOf db asOfDate a := by
      rw [hnet] at hzero; linarith
    have hdeb : (tbRow db asOfDate a).debit = 0 := by
      simp [tbRow, heq, gt_iff_lt]
    have hcred : (tbRow db asOfDate a).credit = 0 := by
      simp [tbRow, heq, gt_iff_lt]
    intro hin
    have := (List.mem_filter.mp hin).2
    rw [hdeb, hcred] at this
    simp at this

/-- Witness for C5: in `tbWitnessDb`, account 1 is active with net 30 as
of date 4, so its row (Debit 30, Credit 0) is in the Trial Balance. -/
theorem trialBalance_classification_witness :
    tbRow tbWitnessDb 4 tbAccount1 ∈ fetchTrialBalance tbWitnessDb 4 ∧
    (tbRow tbWitnessDb 4 tbAccount1).debit = tbNet tbWitnessDb 4 tbAccount1 ∧
    (tbRow tbWitnessDb 4 tbAccount1).credit = 0 := by
  apply (trialBalance_classification tbWitnessDb 4 tbAccount1
    (by simp [tbWitnessDb]) rfl).2.1
  show (0 : ℚ) < tbNet tbWitnessDb 4 tbAccount1
  norm_num [tbNet, tbTotalDebitOf, tbTotalCreditOf, tbLines, tbKeep,
    tbWitnessDb, tbAccount1, tbWitnessHeader, findHeader, List.filter_cons,
    List.find?]

/-- The Trial Balance header-side filter: status Draft or Posted and dated
on or before the as-of date. -/
def tbHeaderKeep (asOfDate : Nat) (h : Header) : Bool :=
  (h.status == Status.draft || h.status == Status.posted) &&
    decide (h.transaction_date ≤ asOfDate)

/-- Claim C6: when every posting group of the snapshot balances (its
base-currency debits equal its credits), the Trial Balance's Debit and
Credit columns sum to equal totals.  The snapshot is assumed relationally
sound: account ids and header ids are unique and every line's account is
present. -/
theorem trialBalance_totals_equal (db : Db) (asOfDate : Nat)
    (hndAcc : (db.accounts.map fun a => a.id).Nodup)
    (hndHead : (db.headers.map fun h => h.id).Nodup)
    (hcov : ∀ l ∈ db.lines, ∃ a ∈ db.accounts, a.id = l.account_id)
    (hbal : ∀ h ∈ db.headers, groupDebit db h.id = groupCredit db h.id) :
    tbTotalDebit db asOfDate = tbTotalCredit db asOfDate := by
  have hrowdiff : ∀ a : Account,
      (tbRow db asOfDate a).debit - (tbRow db asOfDate a).credit =
        tbNet db asOfDate a := by
    intro a
    simp only [tbRow, tbNet, gt_iff_lt]
    rcases lt_trichotomy (tbTotalDebitOf db asOfDate a)
      (tbTotalCreditOf db asOfDate a) with h | h | h
    · rw [if_neg (by linarith), if_pos h]; ring
    · rw [if_neg (by linarith), if_neg (by linarith)]; linarith
    · rw [if_pos h, if_neg (by linarith)]; ring
  have step1 : tbTotalDebit db asOfDate - tbTotalCredit db asOfDate =
      (db.accounts.map fun a => tbNet db asOfDate a).sum := by
    unfold tbTotalDebit tbTotalCredit fetchTrialBalance
    rw [← sum_map_sub, sum_map_filter_eq, List.map_map]
    apply congrArg List.sum
    apply List.map_congr_left
    intro a _
    show (if ((tbRow db asOfDate a).debit > 0 || (tbRow db asOfDate a).credit > 0 : Bool)
        then (tbRow db asOfDate a).debit - (tbRow db asOfDate a).credit else 0) =
      tbNet db asOfDate a
    cases hq : ((tbRow db asOfDate a).debit > 0 || (tbRow db asOfDate a).credit > 0 : Bool) with
    | true => simpa using hrowdiff a
    | false =>
      simp only [Bool.or_eq_false_iff, decide_eq_false_iff_not, not_lt] at hq
      have hdeb0 : (tbRow db asOfDate a).debit = 0 := by
        have hge : 0 ≤ (tbRow db asOfDate a).debit := by
          simp only [tbRow, gt_iff_lt]
          split
          · linarith
          · linarith
        linarith [hq.1]
      have hcred0 : (tbRow db asOfDate a).credit = 0 := by
        have hge : 0 ≤ (tbRow db asOfDate a).credit := by
          simp only [tbRow, gt_iff_lt]
          split
          · linarith
          · linarith
        linarith [hq.2]
      rw [← hrowdiff a, hdeb0, hcred0]
      simp
  have hnetline : ∀ a : Account, tbNet db asOfDate a =
      (db.lines.map fun l =>
        if (l.account_id == a.id && tbKeep db asOfDate l : Bool)
        then l.debit - l.credit else 0).sum := by
    intro a
    unfold tbNet tbTotalDebitOf tbTotalCreditOf tbLines
    rw [← sum_map_sub, sum_map_filter_eq]
  have step2 : (db.accounts.map fun a => tbNet db asOfDate a).sum =
      (db.lines.map fun l =>
        if tbKeep db asOfDate l then l.debit - l.credit else 0).sum := by
    have hswap := sum_map_swap db.accounts db.lines
      (fun a l => if (l.account_id == a.id && tbKeep db asOfDate l : Bool)
        then l.debit - l.credit else 0)
    rw [List.map_congr_left fun a _ => hnetline a, hswap]
    apply congrArg List.sum
    apply List.map_congr_left
    intro l hl
    cases hk : tbKeep db asOfDate l with
    | false =>
      rw [if_neg (by simp [hk])]
      rw [List.map_congr_left (g := fun _ : Account => (0 : ℚ))
        fun a _ => by simp [hk]]
      simp
    | true =>
      obtain ⟨a0, ha0, hid⟩ := hcov l hl
      rw [if_pos (by simp [hk])]
      rw [List.map_congr_left
        (g := fun a : Account =>
          if (l.account_id == a.id : Bool) then l.debit - l.credit else 0)
        fun a _ => by simp only [hk, Bool.and_true]]
      exact sum_map_key_single (fun a => a.id) l.account_id
        (fun _ => l.debit - l.credit) db.accounts a0 hndAcc ha0 hid
  have hperline : ∀ l ∈ db.lines,
      (if tbKeep db asOfDate l then l.debit - l.credit else 0) =
        (db.headers.map fun h =>
          if (tbHeaderKeep asOfDate h && l.header_id == h.id : Bool)
          then l.debit - l.credit else 0).sum := by
    intro l _
    cases hf : findHeader db l.header_id with
    | some h0 =>
      have hmem0 : h0 ∈ db.headers := List.mem_of_find?_eq_some hf
      have hid0 : h0.id = l.header_id := by
        have := List.find?_some hf
        simpa [beq_iff_eq] using this
      have hkeep : tbKeep db asOfDate l = tbHeaderKeep asOfDate h0 := by
        unfold tbKeep tbHeaderKeep
        rw [hf]
      rw [List.map_congr_left
        (g := fun h : Header =>
          if (l.header_id == h.id : Bool)
          then (if tbHeaderKeep asOfDate h then l.debit - l.credit else 0) else 0)
        fun h _ => by
          cases hP : tbHeaderKeep asOfDate h <;>
            cases hij : (l.header_id == h.id : Bool) <;> simp [hP, hij]]
      rw [sum_map_key_single (fun h => h.id) l.header_id
        (fun h => if tbHeaderKeep asOfDate h then l.debit - l.credit else 0)
        db.headers h0 hndHead hmem0 hid0, hkeep]
    | none =>
      have habs := List.find?_eq_none.mp hf
      have hkeep : tbKeep db asOfDate l = false := by
        unfold tbKeep
        rw [hf]
      rw [hkeep]
      rw [List.map_congr_left (g := fun _ : Header => (0 : ℚ)) fun h hh => by
        have hne : h.id ≠ l.header_id := by
          simpa [beq_iff_eq] using habs h hh
        have hij : (l.header_id == h.id) = false := by
          simp only [beq_eq_false_iff_ne, ne_eq]
          exact fun e => hne e.symm
        simp [hij]]
      simp
  have step3 : (db.lines.map fun l =>
      if tbKeep db asOfDate l then l.debit - l.credit else 0).sum = 0 := by
    rw [List.map_congr_left fun l hl => hperline l hl]
    rw [sum_map_swap db.lines db.headers
      (fun l h => if (tbHeaderKeep asOfDate h && l.header_id == h.id : Bool)
        then l.debit - l.credit else 0)]
    rw [List.map_congr_left (g := fun _ : Header => (0 : ℚ)) fun h hh => ?_]
    · simp
    cases hP : tbHeaderKeep asOfDate h with
    | false =>
      rw [List.map_congr_left (g := fun _ : Line => (0 : ℚ))
        fun l _ => by simp [hP]]
      simp
    | true =>
      rw [List.map_congr_left
        (g := fun l : Line =>
          if (l.header_id == h.id : Bool) then l.debit - l.credit else 0)
        fun l _ => by simp only [hP, Bool.true_and]]
      rw [← sum_map_filter_eq (fun l => l.header_id == h.id)
        (fun l => l.debit - l.credit) db.lines]
      rw [sum_map_sub]
      have := hbal h hh
      unfold groupDebit groupCredit at this
      rw [this]
      ring
  have : tbTotalDebit db asOfDate - tbTotalCredit db asOfDate = 0 := by
    rw [step1, step2, step3]
  linarith

/-- Witness for C6: on `tbWitnessDb` (a single balanced posted group) the
Trial Balance columns agree. -/
theorem trialBalance_totals_equal_witness :
    tbTotalDebit tbWitnessDb 4 = tbTotalCredit tbWitnessDb 4 := by
  apply trialBalance_totals_equal tbWitnessDb 4
  · decide
  · decide
  · decide
  · intro h hh
    have hh30 : h = tbWitnessHeader := by
      simpa [tbWitnessDb] using hh
    subst hh30
    norm_num [groupDebit, groupCredit, tbWitnessDb, tbWitnessHeader,
      List.filter_cons]

/-- Counterexample for C7: the group of `commissionCounterDb` has a
customer line but no commission line; the claim says such a group yields
one output row, but the Commission Extractor excludes it. -/
theorem commission_customer_only_excluded :
    ((headerLines commissionCounterDb commissionCounterHeader).find?
      (isCustomerLine 9)).isSome = true ∧
    ((headerLines commissionCounterDb commissionCounterHeader).find?
      (fun t => t.account_id == 9)) = none ∧
    commissionFetchTransactions commissionCounterDb 9 0 5 commissionTypeCodes = [] := by
  have hls : headerLines commissionCounterDb commissionCounterHeader =
      [commissionCounterLine] := by
    simp [headerLines, commissionCounterDb, commissionCounterHeader,
      commissionCounterLine, List.filter_cons]
  have hcust : isCustomerLine 9 commissionCounterLine = true := by
    norm_num [isCustomerLine, commissionCounterLine]
  have hnocomm : (commissionCounterLine.account_id == 9) = false := by
    simp [commissionCounterLine]
  refine ⟨?_, ?_, ?_⟩
  · rw [hls]
    simp [List.find?_cons, hcust]
  · rw [hls]
    simp [List.find?_cons, hnocomm]
  · have hrow : commissionRowOf commissionCounterDb 9 commissionCounterHeader =
        none := by
      unfold commissionRowOf
      rw [hls]
      simp [List.find?_cons, hnocomm]
    have hhdrs : commissionHeaders commissionCounterDb 0 5 commissionTypeCodes =
        [commissionCounterHeader] := by
      simp [commissionHeaders, commissionCounterDb, commissionCounterHeader,
        commissionTypeCodes, List.filter_cons]
    show (commissionHeaders commissionCounterDb 0 5 commissionTypeCodes).filterMap
      (commissionRowOf commissionCounterDb 9) = []
    rw [hhdrs]
    simp [List.filterMap_cons, hrow]

/-- Claim C7 (amended): a posted group with a requested type code is
excluded from the Commission Extractor's output, without an error, exactly
when it lacks a customer line or lacks a commission line (in particular
when it lacks both); a group with both lines yields one row. -/
theorem commission_exclusion_iff (db : Db) (commissionAccountId : Nat)
    (startDate endDate : Nat) (codes : List String) :
    commissionFetchTransactions db commissionAccountId startDate endDate codes =
      (commissionHeaders db startDate endDate codes).filterMap
        (commissionRowOf db commissionAccountId) ∧
    ∀ h : Header,
      (commissionRowOf db commissionAccountId h = none ↔
        ((headerLines db h).find? (isCustomerLine commissionAccountId) = none ∨
         (headerLines db h).find? (fun t => t.account_id == commissionAccountId) =
           none)) := by
  refine ⟨rfl, fun h => ?_⟩
  unfold commissionRowOf
  cases hc : (headerLines db h).find? (isCustomerLine commissionAccountId) <;>
    cases hm : (headerLines db h).find? (fun t => t.account_id == commissionAccountId) <;>
      simp [hc, hm]

/-- Claim C8: the Zakat base is the sum, over the zakat-eligible active
accounts, of each account's posted balance as of end of the selected date
(the specification's `openingBalance` at `asOfDate + 1` with
`statusFilter = {Posted}`), and the zakat payable is exactly 0.025 times
that sum. -/
theorem zakat_base_and_rate (db : Db) (asOfDate : Nat) :
    zakatTotalBalance db asOfDate =
      ((zakatEligibleAccounts db).map
        fun a => openingBalanceSpec db a.id (asOfDate + 1) [Status.posted]).sum ∧
    zakatAmount db asOfDate = 0.025 * zakatTotalBalance db asOfDate := by
  constructor
  · unfold zakatTotalBalance
    apply congrArg List.sum
    apply List.map_congr_left
    intro a _
    unfold zakatAccountBalance openingBalanceSpec
    apply congrArg List.sum
    apply congrArg
    apply List.filter_congr
    intro l _
    unfold zakatKeep
    cases hf : findHeader db l.header_id with
    | none => simp [hf]
    | some h => cases hs : h.status <;> simp [hf, hs, Nat.lt_succ_iff]
  · unfold zakatAmount
    ring

/-- Claim C10: for any parsed amount and nonzero exchange rate, the edit
saves exactly two lines — the first on the bank book account, the second
on the counterpart account — whose debits and credits cancel both in base
currency and in document currency: the written group balances by
construction. -/
theorem editBankEntry_balanced (headerId bankBookId counterAccountId currencyId : Nat)
    (amount exchangeRate : ℚ) (rateNote : Option Direction)
    (hrate : exchangeRate ≠ 0) :
    (editBankEntryGlTransactions headerId bankBookId counterAccountId currencyId
      amount exchangeRate rateNote).length = 2 ∧
    ((editBankEntryGlTransactions headerId bankBookId counterAccountId currencyId
      amount exchangeRate rateNote).map fun t => t.account_id) =
      [bankBookId, counterAccountId] ∧
    ((editBankEntryGlTransactions headerId bankBookId counterAccountId currencyId
      amount exchangeRate rateNote).map fun t => t.debit).sum =
      ((editBankEntryGlTransactions headerId bankBookId counterAccountId currencyId
        amount exchangeRate rateNote).map fun t => t.credit).sum ∧
    ((editBankEntryGlTransactions headerId bankBookId counterAccountId currencyId
      amount exchangeRate rateNote).map fun t => t.debit_doc_currency).sum =
      ((editBankEntryGlTransactions headerId bankBookId counterAccountId currencyId
        amount exchangeRate rateNote).map fun t => t.credit_doc_currency).sum := by
  refine ⟨rfl, rfl, ?_, ?_⟩ <;>
  · unfold editBankEntryGlTransactions
    rcases lt_trichotomy amount 0 with hneg | hzero | hpos
    · simp [hneg, not_lt.mpr (le_of_lt hneg), asymm hneg]
    · simp [hzero]
    · simp [hpos, not_lt.mpr (le_of_lt hpos), asymm hpos]

/-- Witness for C10: a concrete save (amount 10, rate 2, direction
Multiply) produces the two balanced lines. -/
theorem editBankEntry_balanced_witness :
    (editBankEntryGlTransactions 7 1 2 3 10 2 (some Direction.multiply)).length = 2 ∧
    ((editBankEntryGlTransactions 7 1 2 3 10 2 (some Direction.multiply)).map
      fun t => t.account_id) = [1, 2] ∧
    ((editBankEntryGlTransactions 7 1 2 3 10 2 (some Direction.multiply)).map
      fun t => t.debit).sum =
      ((editBankEntryGlTransactions 7 1 2 3 10 2 (some Direction.multiply)).map
        fun t => t.credit).sum ∧
    ((editBankEntryGlTransactions 7 1 2 3 10 2 (some Direction.multiply)).map
      fun t => t.debit_doc_currency).sum =
      ((editBankEntryGlTransactions 7 1 2 3 10 2 (some Direction.multiply)).map
        fun t => t.credit_doc_currency).sum :=
  editBankEntry_balanced 7 1 2 3 10 2 (some Direction.multiply) (by norm_num)

/-- Claim C2: converting an amount to base currency returns the amount
unchanged when the currency is the base currency, `amount * rate` when the
currency's conversion direction is `Multiply`, and `amount / rate` when it
is `Divide` (the stored rate being positive per the data model, in
particular nonzero in the `Divide` case). -/
theorem convertToBaseCurrency_spec (amount : ℚ) (currencyId : Nat)
    (ratesMap : List (Nat × Currency)) (baseCurrencyId : Nat) :
    (currencyId = baseCurrencyId →
      convertToBaseCurrency amount currencyId ratesMap baseCurrencyId =
        JsNumber.num amount) ∧
    (∀ c : Currency, currencyId ≠ baseCurrencyId →
      ratesMap.lookup currencyId = some c →
      c.exchange_rate_note = some Direction.multiply →
      convertToBaseCurrency amount currencyId ratesMap baseCurrencyId =
        JsNumber.num (amount * c.rate)) ∧
    (∀ c : Currency, currencyId ≠ baseCurrencyId →
      ratesMap.lookup currencyId = some c →
      c.exchange_rate_note = some Direction.divide →
      c.rate ≠ 0 →
      convertToBaseCurrency amount currencyId ratesMap baseCurrencyId =
        JsNumber.num (amount / c.rate)) := by
  refine ⟨fun hb => ?_, fun c hne hl hm => ?_, fun c hne hl hd hr => ?_⟩
  · simp [convertToBaseCurrency, hb]
  · simp [convertToBaseCurrency, hne, hl, hm]
  · simp [convertToBaseCurrency, hne, hl, hd, jsDiv, hr]

/-- Witness for C2: concrete instances of the three cases of
`convertToBaseCurrency_spec`. -/
theorem convertToBaseCurrency_spec_witness :
    convertToBaseCurrency 7 1 [] 1 = JsNumber.num 7 ∧
    convertToBaseCurrency 100 3
      [(3, { id := 3, rate := 4, is_base := false,
             exchange_rate_note := some Direction.multiply })] 1 =
      JsNumber.num 400 ∧
    convertToBaseCurrency 100 3
      [(3, { id := 3, rate := 4, is_base := false,
             exchange_rate_note := some Direction.divide })] 1 =
      JsNumber.num 25 := by
  refine ⟨(convertToBaseCurrency_spec 7 1 [] 1).1 rfl, ?_, ?_⟩
  · have h := (convertToBaseCurrency_spec 100 3
      [(3, { id := 3, rate := 4, is_base := false,
             exchange_rate_note := some Direction.multiply })] 1).2.1
      { id := 3, rate := 4, is_base := false,
        exchange_rate_note := some Direction.multiply }
      (by decide) (by decide) rfl
    rw [h]; norm_num
  · have h := (convertToBaseCurrency_spec 100 3
      [(3, { id := 3, rate := 4, is_base := false,
             exchange_rate_note := some Direction.divide })] 1).2.2
      { id := 3, rate := 4, is_base := false,
        exchange_rate_note := some Direction.divide }
      (by decide) (by decide) rfl (by norm_num)
    rw [h]; norm_num

/-- Counterexample for C9: with a `Divide` currency whose rate is 0, the
conversion silently returns `Infinity` — there is no error path. -/
theorem convertToBaseCurrency_zero_rate_counterexample :
    convertToBaseCurrency 100 2 zeroRateRatesMap 1 = JsNumber.posInf := by
  decide

/-- Claim C9 (amended): converting with a `Divide` currency whose rate is 0
does not fail; it silently returns `Infinity` for a positive amount,
`-Infinity` for a negative amount, and `NaN` for a zero amount. -/
theorem convertToBaseCurrency_zero_rate_divide (amount : ℚ) (currencyId : Nat)
    (ratesMap : List (Nat × Currency)) (baseCurrencyId : Nat) (c : Currency)
    (hne : currencyId ≠ baseCurrencyId)
    (hl : ratesMap.lookup currencyId = some c)
    (hd : c.exchange_rate_note = some Direction.divide)
    (hr : c.rate = 0) :
    convertToBaseCurrency amount currencyId ratesMap baseCurrencyId =
      (if 0 < amount then JsNumber.posInf
       else if amount < 0 then JsNumber.negInf
       else JsNumber.nan) := by
  simp [convertToBaseCurrency, hne, hl, hd, jsDiv, hr]

/-- Witness for the amended C9: a negative amount divided by a zero rate
silently becomes `-Infinity`. -/
theorem convertToBaseCurrency_zero_rate_divide_witness :
    convertToBaseCurrency (-5) 2 zeroRateRatesMap 1 = JsNumber.negInf := by
  have h := convertToBaseCurrency_zero_rate_divide (-5) 2 zeroRateRatesMap 1
    zeroRateDivideCurrency (by decide) (by decide) rfl rfl
  rw [h]; norm_num

end AAHisab
